import Mathlib

/-!
# Verification of the Unreal-Rokoko streaming/control engine

Shallow embedding of the streaming core of the `Unreal-Rokoko` repository:

* `src/mh_streamer_gui.py` — the GUI frame scheduler (`MetaHumanStreamerGUI`):
  worker loop, command handling, heartbeat/ramp emission, envelope builder.
* `src/v3/mh_streamer_v3.py` — the v3 streamer (`MetaHumanStreamerV3`):
  per-channel transform pipeline, denormalization, mode/turn handling.

Python floats are modelled as rationals (`ℚ`); the arithmetic performed by the
code (`+`, `*`, `min`, `max`, division by a nonzero count) is exact on the
inputs the claims quantify over.  OSC transmission is modelled by the list of
messages the code hands to the transport (`SimpleUDPClient.send_message` is
fire-and-forget UDP); the success/error counters are the ones the code keeps
(`osc_send_count` / `osc_error_count`).  `root.after(0, f)` defers `f` to the
Tk main loop, which runs it within the current frame period; it is modelled as
taking effect before the next worker iteration.
-/

/-- One argument value of an OSC message: float, int, or string
(`SimpleUDPClient.send_message` accepts any of these). -/
inductive OSCVal where
  | f (x : ℚ)
  | i (n : ℕ)
  | s (s : String)
deriving DecidableEq

/-- One OSC message handed to the transport: an address plus one value.
Transmission is fire-and-forget UDP; the embedding records the list of
messages the code passes to `send_message`. -/
structure Msg where
  address : String
  val : OSCVal
deriving DecidableEq

namespace Gui

/-- Model of `np.linspace(0, 1, n)` as used by `build_envelope`:
`n` evenly spaced samples from 0 to 1 inclusive; for `n = 1` numpy returns
`[0.0]`, for `n = 0` the empty array. -/
def linspace01 (n : ℕ) : List ℚ :=
  (List.range n).map fun i : ℕ => if n ≤ 1 then 0 else (i : ℚ) / ((n : ℚ) - 1)

/-- The cubic ease-in-out law `3t² − 2t³` applied pointwise in
`MetaHumanStreamerGUI.build_envelope`. -/
def ease (t : ℚ) : ℚ := 3 * t ^ 2 - 2 * t ^ 3

/-- Embedding of `MetaHumanStreamerGUI.build_envelope(n_frames)`:
`t = np.linspace(0, 1, n_frames); envelope = 3 * t**2 - 2 * t**3`. -/
def build_envelope (n : ℕ) : List ℚ :=
  (linspace01 n).map ease

/-- The `MODES` table of `mh_streamer_gui.py` as an enumeration
(the Python code stores the display strings; only identity matters). -/
inductive Mode where
  | IDLE
  | HEARTBEAT
  | TURNING_RIGHT
  | TURNING_LEFT
  | BASELINE
  | STOPPED
deriving DecidableEq

/-- The `COMMANDS` table of `mh_streamer_gui.py`. -/
inductive Command where
  | START_HEARTBEAT
  | TURN_RIGHT
  | TURN_LEFT
  | BASELINE
  | STOP_ALL
  | QUIT
deriving DecidableEq

/-- One entry of `self.channels` as validated by `load_config`:
`{address, amp_right, amp_left}`. -/
structure Channel where
  address : String
  amp_right : ℚ
  amp_left : ℚ
deriving DecidableEq

/-- The `direction` argument of `start_ramp`. -/
inductive RampDir where
  | right
  | left
  | baseline
deriving DecidableEq

/-- The worker-owned state of `MetaHumanStreamerGUI`.  `hasClient` models
`self.osc_client is not None`; `queue` is the FIFO `command_queue`
(`queue.Queue` with one producer and one consumer); `rampFramesCfg` and
`holdFramesCfg` are `int(duration * fps)` and `int(hold * fps)` computed
from the GUI entry fields, read by `start_ramp`.  The wall-clock fields
(`last_send_time`, `connection_active`) drive only the GUI staleness
indicator and are omitted: no modelled transition reads them. -/
structure State where
  running : Bool
  mode : Mode
  channels : List Channel
  rampData : Option (List (List ℚ))
  rampFrame : ℕ
  holdFrames : ℕ
  holdFrame : ℕ
  hasClient : Bool
  queue : List Command
  sendCount : ℕ
  errorCount : ℕ
  rampFramesCfg : ℕ
  holdFramesCfg : ℕ
deriving DecidableEq

/-- Amplitude selected by `start_ramp` for a channel:
`amp_right` / `amp_left` / `0.0` for baseline. -/
def ampFor (d : RampDir) (c : Channel) : ℚ :=
  match d with
  | .right => c.amp_right
  | .left => c.amp_left
  | .baseline => 0

/-- Embedding of `start_osc_client`: constructs `SimpleUDPClient` (pure socket setup, no
network traffic, assumed to succeed) and resets the send/error counters. -/
def start_osc_client (s : State) : State :=
  { s with hasClient := true, sendCount := 0, errorCount := 0 }

/-- Embedding of `start_ramp(direction)`: returns early without a client or channels;
otherwise builds per-channel ramp values `amplitude * build_envelope(n)` and
resets the ramp/hold progress counters. -/
def start_ramp (s : State) (d : RampDir) : State :=
  if s.hasClient = false ∨ s.channels = [] then s
  else
    { s with
      rampData := some (s.channels.map fun c =>
        (build_envelope s.rampFramesCfg).map fun e => ampFor d c * e),
      rampFrame := 0,
      holdFrames := s.holdFramesCfg,
      holdFrame := 0 }

/-- Embedding of `stop_all`: clears ramp state and, when a client and channels exist,
sends `0.0` to every channel address and counts the sends. -/
def stop_all (s : State) : State × List Msg :=
  let s1 := { s with rampData := none, rampFrame := 0, holdFrame := 0 }
  if s.hasClient = true ∧ s.channels ≠ [] then
    ({ s1 with sendCount := s1.sendCount + s.channels.length },
      s.channels.map fun c => Msg.mk c.address (.f 0))
  else (s1, [])

/-- Embedding of `handle_command`: dispatch of one dequeued command.  The
`root.after(0, update_status(...))` calls are modelled as updating the mode
immediately (the Tk main loop runs them within the current frame period). -/
def handle_command (s : State) (c : Command) : State × List Msg :=
  match c with
  | .START_HEARTBEAT => ({ start_osc_client s with mode := .HEARTBEAT }, [])
  | .TURN_RIGHT => ({ start_ramp s .right with mode := .TURNING_RIGHT }, [])
  | .TURN_LEFT => ({ start_ramp s .left with mode := .TURNING_LEFT }, [])
  | .BASELINE => ({ start_ramp s .baseline with mode := .BASELINE }, [])
  | .STOP_ALL =>
      let p := stop_all s
      ({ p.1 with mode := .STOPPED }, p.2)
  | .QUIT => ({ s with running := false }, [])

/-- Embedding of `send_heartbeat`: with a client and a non-empty channel list, sends `0.0`
once to every configured channel address and counts the sends. -/
def send_heartbeat (s : State) : State × List Msg :=
  if s.hasClient = false ∨ s.channels = [] then (s, [])
  else
    ({ s with sendCount := s.sendCount + s.channels.length },
      s.channels.map fun c => Msg.mk c.address (.f 0))

/-- Embedding of `send_ramp_frame`: returns early when there is no client or no ramp data
(`not self.ramp_data` is also true for an empty list).  Once the envelope is
exhausted (`ramp_frame >= len(ramp_data[0])`): while `hold_frame <
hold_frames` it sends each channel's final ramp value `ramp_data[i][-1]` and
advances `hold_frame` — returning *before* the stats block, so these sends do
not reach `osc_send_count`; once the hold completes it enqueues
`START_HEARTBEAT` (via `root.after`) and sends nothing.  Otherwise it sends
`ramp_data[i][self.ramp_frame]` per channel, counts the sends, and advances
`ramp_frame`.  `enumerate(self.channels)` indexing `ramp_data[i]` is modelled
by `zip` (the lists have equal length for ramps built by `start_ramp`), and
the in-range indexing by `getD`/`getLastD` with an unused default. -/
def send_ramp_frame (s : State) : State × List Msg :=
  if s.hasClient = false then (s, [])
  else
    match s.rampData with
    | none => (s, [])
    | some [] => (s, [])
    | some (r0 :: rs) =>
        if r0.length ≤ s.rampFrame then
          if s.holdFrame < s.holdFrames then
            ({ s with holdFrame := s.holdFrame + 1 },
              (s.channels.zip (r0 :: rs)).map fun p =>
                Msg.mk p.1.address (.f (p.2.getLastD 0)))
          else
            ({ s with queue := s.queue ++ [.START_HEARTBEAT] }, [])
        else
          let ms := (s.channels.zip (r0 :: rs)).map fun p =>
            Msg.mk p.1.address (.f (p.2.getD s.rampFrame 0))
          ({ s with rampFrame := s.rampFrame + 1,
                    sendCount := s.sendCount + ms.length }, ms)

/-- The mode dispatch of one `worker_loop` iteration: `HEARTBEAT` sends the
heartbeat, the three ramping modes send a ramp frame, `IDLE` and `STOPPED`
fall through. -/
def mode_dispatch (s : State) : State × List Msg :=
  match s.mode with
  | .HEARTBEAT => send_heartbeat s
  | .TURNING_RIGHT => send_ramp_frame s
  | .TURNING_LEFT => send_ramp_frame s
  | .BASELINE => send_ramp_frame s
  | _ => (s, [])

/-- One iteration of `worker_loop`: drain at most one command with
`get_nowait` (no blocking), handle it, then dispatch on the current mode.
Returns the new state, the messages handed to the transport this tick, and
the command applied (if any).  The staleness check and the frame sleep touch
no modelled state. -/
def worker_iter (s : State) : State × List Msg × Option Command :=
  match s.queue with
  | [] =>
      let p := mode_dispatch s
      (p.1, p.2, none)
  | c :: rest =>
      let p := handle_command { s with queue := rest } c
      let q := mode_dispatch p.1
      (q.1, p.2 ++ q.2, some c)

/-- State after `n` worker iterations. -/
def iter_state : ℕ → State → State
  | 0, s => s
  | n + 1, s => (worker_iter (iter_state n s)).1

/-- Messages emitted during iteration `k` (0-indexed). -/
def iter_msgs (k : ℕ) (s : State) : List Msg :=
  (worker_iter (iter_state k s)).2.1

/-- Commands applied over the first `n` iterations, in application order. -/
def iter_applied : ℕ → State → List Command
  | 0, _ => []
  | n + 1, s =>
      (worker_iter s).2.2.toList ++ iter_applied n (worker_iter s).1

/-- Concrete state used by witnesses: heartbeat mode, one configured channel,
connected client, empty queue. -/
def wit_hb : State :=
  { running := true, mode := .HEARTBEAT,
    channels := [⟨"/bone/pelvis/yaw", 3, 5⟩],
    rampData := none, rampFrame := 0, holdFrames := 0, holdFrame := 0,
    hasClient := true, queue := [], sendCount := 0, errorCount := 0,
    rampFramesCfg := 2, holdFramesCfg := 1 }

/-- Witness state in `IDLE` with an empty queue. -/
def wit_idle : State := { wit_hb with mode := .IDLE }

/-- Witness state: envelope of length 2 exhausted (`rampFrame = 2`), one hold
frame pending, mode `TURNING_LEFT`. -/
def wit_hold : State :=
  { wit_hb with
    mode := .TURNING_LEFT,
    rampData := some (wit_hb.channels.map fun c =>
      (build_envelope 2).map fun e => ampFor .left c * e),
    rampFrame := 2,
    holdFrames := 1 }

/-- Witness state with two queued commands. -/
def wit_queue : State := { wit_hb with queue := [.TURN_LEFT, .STOP_ALL] }

end Gui

namespace V3

/-- The `transform` entry of one channel from `osc_channels_config.json`:
`{scale, offset, clamp: [min,max] | null}`. -/
structure Transform where
  scale : ℚ
  offset : ℚ
  clamp : Option (ℚ × ℚ)
deriving DecidableEq

/-- One entry of `MetaHumanStreamerV3.channels` as loaded by
`load_channel_config`. -/
structure Channel where
  source_column : String
  osc_address : String
  transform : Transform
deriving DecidableEq

/-- Contents of `normalization_params.json` used by `denormalize_data`:
per-feature `mean` and `std` arrays. -/
structure NormParams where
  mean : List ℚ
  std : List ℚ
deriving DecidableEq

/-- The streaming-relevant state of `MetaHumanStreamerV3`.  `channelMapping`
is the `channel_mapping` dict built at `load_channel_config` time (source
column → feature index), modelled as an association list; `hasClient` models
`self.osc_client is not None`; `currentMode` is the mode string sent on
`/mh/mode`. -/
structure State where
  channels : List Channel
  channelMapping : List (String × ℕ)
  normalizationParams : Option NormParams
  isStreaming : Bool
  currentMode : String
  leftTurnSequence : Option (List (List ℚ))
  rightTurnSequence : Option (List (List ℚ))
  hasClient : Bool
  oscSendCount : ℕ
  oscErrorCount : ℕ
deriving DecidableEq

/-- Dict lookup `self.channel_mapping[source_column]` guarded by the
membership test `source_column in self.channel_mapping`. -/
def lookupMapping (m : List (String × ℕ)) (col : String) : Option ℕ :=
  (m.find? fun p => p.1 == col).map fun p => p.2

/-- Embedding of `MetaHumanStreamerV3.denormalize_data`: returns the input unchanged when
`self.normalization_params is None`, otherwise `(x_norm * std) + mean`
elementwise. -/
def denormalize_data (p : Option NormParams) (v : List ℚ) : List ℚ :=
  match p with
  | none => v
  | some q => (v.zipWith (· * ·) q.std).zipWith (· + ·) q.mean

/-- The clamp step of `stream_frame`:
`max(clamp_min, min(clamp_max, value))` when `transform['clamp']` is set. -/
def applyClamp (t : Transform) (x : ℚ) : ℚ :=
  match t.clamp with
  | none => x
  | some (lo, hi) => max lo (min hi x)

/-- Messages produced for one configured channel in `stream_frame`'s loop:
a mapped channel with an in-range feature index sends
`scale * denormalized[idx] + offset` (clamped if configured); a mapped
channel whose index is out of range sends nothing (the code has no `else`
for `feature_idx < len`); an unmapped channel sends the fallback `0.0`. -/
def channelMsg (mapping : List (String × ℕ)) (denorm : List ℚ)
    (c : Channel) : List Msg :=
  match lookupMapping mapping c.source_column with
  | some i =>
      if i < denorm.length then
        [Msg.mk c.osc_address (.f (applyClamp c.transform
          (c.transform.scale * denorm.getD i 0 + c.transform.offset)))]
      else []
  | none => [Msg.mk c.osc_address (.f 0)]

/-- All messages `stream_frame` hands to the transport for one frame: the
per-channel values followed by the `/mh/frame` and `/mh/mode` control
messages. -/
def streamMsgs (s : State) (frame_data : List ℚ) (frame_count : ℕ) : List Msg :=
  (s.channels.map fun c => channelMsg s.channelMapping
      (denormalize_data s.normalizationParams frame_data) c).flatten
    ++ [Msg.mk ("/mh/frame") (.i frame_count),
        Msg.mk ("/mh/mode") (.s s.currentMode)]

/-- Embedding of `MetaHumanStreamerV3.stream_frame(frame_data, frame_count)`: returns
early without a client or channels; otherwise denormalizes and sends
`streamMsgs`.  Every send that does not raise increments `success_count`,
which is added to `osc_send_count`; the transport send is modelled as
succeeding, so `success_count` equals the number of messages and
`osc_error_count` is unchanged. -/
def stream_frame (s : State) (frame_data : List ℚ) (frame_count : ℕ) :
    State × List Msg :=
  if s.hasClient = false then (s, [])
  else if s.channels = [] then (s, [])
  else
    ({ s with oscSendCount :=
        s.oscSendCount + (streamMsgs s frame_data frame_count).length },
      streamMsgs s frame_data frame_count)

/-- Embedding of `start_left_turn`: when not streaming, logs "Please start streaming
first" and returns; otherwise sets mode `TURNING_LEFT` and stores the
left-turn sequence produced by `generate_turn_sequence` (sequence data comes
from a `.npy` file and is passed in as `seq`). -/
def start_left_turn (s : State) (seq : List (List ℚ)) : State :=
  if s.isStreaming = false then s
  else { s with currentMode := "TURNING_LEFT", leftTurnSequence := some seq }

/-- Embedding of `start_right_turn`: mirror image of `start_left_turn`. -/
def start_right_turn (s : State) (seq : List (List ℚ)) : State :=
  if s.isStreaming = false then s
  else { s with currentMode := "TURNING_RIGHT", rightTurnSequence := some seq }

/-- Embedding of `return_to_baseline`: when not streaming, logs and returns; otherwise
sets mode `BASELINE` (no sequence is stored). -/
def return_to_baseline (s : State) : State :=
  if s.isStreaming = false then s
  else { s with currentMode := "BASELINE" }

/-- Witness state: one mapped channel (with clamp) and a client. -/
def wit_mapped : State :=
  { channels := [⟨"Pelvis_axial_rotation", "/bone/pelvis/yaw", ⟨2, 1, some (-10, 10)⟩⟩],
    channelMapping := [("Pelvis_axial_rotation", 0)],
    normalizationParams := some ⟨[4], [3]⟩,
    isStreaming := true, currentMode := "BASELINE",
    leftTurnSequence := none, rightTurnSequence := none,
    hasClient := true, oscSendCount := 0, oscErrorCount := 0 }

/-- Witness state: a single channel whose source column has no feature
index (empty `channel_mapping`). -/
def wit_miss : State :=
  { wit_mapped with
    channels := [⟨"Missing_column", "/bone/spine_01/pitch", ⟨1, 0, none⟩⟩],
    channelMapping := [],
    normalizationParams := none }

/-- Witness state that is not streaming. -/
def wit_stopped : State := { wit_mapped with isStreaming := false }

end V3

namespace NLP

/-- Modelled from the spec: `osc_streamer_v3.parser.NLPParser` and
`osc_streamer_v3.intents.TurnIntent` are absent from `src/` (only
`src/tests/test_parser.py` exercises them).  A resolved turn intent per
spec §3: scope, direction, numeric parameters. -/
structure TurnIntent where
  scope : String
  direction : String
  angle_deg : ℚ
  speed_deg_s : ℚ
  duration_s : Option ℚ
deriving DecidableEq

/-- Modelled from the spec: the data the spec §4.4 step-2 turn regex extracts
from a matched turn phrase — the optional `head` scope token, the direction
resolved through the synonym table, optional explicit angle/speed/duration
numbers — together with the step-3 qualitative modifiers
(`"a little"→5`, `"a lot"→60`; `"slowly"→30`, `"quickly"→270`). -/
structure TurnMatch where
  headScope : Bool
  direction : String
  angle : Option ℚ
  speed : Option ℚ
  duration : Option ℚ
  angleMod : Option ℚ
  speedMod : Option ℚ
deriving DecidableEq

/-- Clamp helper used by the parser: `max(lo, min(hi, x))`. -/
def clampTo (lo hi x : ℚ) : ℚ := max lo (min hi x)

/-- Modelled from the spec: steps 3–4 of `NLPParser.parse` for a matched
turn pattern — explicit numbers win, qualitative modifiers seed missing
numbers, defaults `angle_deg=15`, `speed_deg_s=90`, `duration_s=None`; then
clamping `angle_deg ∈ [0,180]`, `speed_deg_s ∈ [1,360]`, `duration_s ∈
[0,10]` when present, applied regardless of the value's source. -/
def resolveTurn (m : TurnMatch) : TurnIntent :=
  let angle := (m.angle.orElse fun _ => m.angleMod).getD 15
  let speed := (m.speed.orElse fun _ => m.speedMod).getD 90
  { scope := if m.headScope then ("head") else ("body")
    direction := m.direction
    angle_deg := clampTo 0 180 angle
    speed_deg_s := clampTo 1 360 speed
    duration_s := m.duration.map fun dur => clampTo 0 10 dur }

end NLP

namespace Gui

theorem length_linspace01 (n : ℕ) : (linspace01 n).length = n := by
  rw [linspace01, List.length_map, List.length_range]

theorem length_build_envelope (n : ℕ) : (build_envelope n).length = n := by
  rw [build_envelope, List.length_map, length_linspace01]

theorem build_envelope_getElem (n i : ℕ) (h : i < n) :
    (build_envelope n).getD i 0 =
      ease (if n ≤ 1 then 0 else (i : ℚ) / ((n : ℚ) - 1)) := by
  have hlen : i < (build_envelope n).length := by
    rw [length_build_envelope]; exact h
  rw [List.getD_eq_getElem _ _ hlen]
  simp only [build_envelope, linspace01, List.getElem_map, List.getElem_range]

/-- The function `ease` maps `[0,1]` into `[0,1]`. -/
theorem ease_mem_unitInterval {t : ℚ} (h0 : 0 ≤ t) (h1 : t ≤ 1) :
    0 ≤ ease t ∧ ease t ≤ 1 := by
  constructor
  · have h3 : 0 ≤ 3 - 2 * t := by linarith
    have := mul_nonneg (mul_nonneg h0 h0) h3
    simp only [ease]; nlinarith
  · have hsq : 0 ≤ (1 - t) ^ 2 * (1 + 2 * t) := by positivity
    simp only [ease]; nlinarith

/-- The function `ease` is monotone on `[0,1]`. -/
theorem ease_mono {a b : ℚ} (ha : 0 ≤ a) (hab : a ≤ b) (hb : b ≤ 1) :
    ease a ≤ ease b := by
  have hb0 : 0 ≤ b := le_trans ha hab
  have ha1 : a ≤ 1 := le_trans hab hb
  simp only [ease]
  nlinarith [mul_nonneg (sub_nonneg.2 hab) (mul_nonneg ha (sub_nonneg.2 hb)),
    mul_nonneg (sub_nonneg.2 hab) (mul_nonneg hb0 (sub_nonneg.2 ha1)),
    mul_nonneg (sub_nonneg.2 hab) (mul_nonneg (sub_nonneg.2 hab) (sub_nonneg.2 hb)),
    mul_nonneg (sub_nonneg.2 hab) (mul_nonneg (sub_nonneg.2 hab) ha)]

end Gui

/-- Claim C3. For every `n > 1`, `build_envelope n` has length `n`, all its
elements lie in `[0,1]`, it is monotonically non-decreasing, its first element
is `0` and its last element is `1` (exactly, in exact rational arithmetic). -/
theorem c3_envelope_shape (n : ℕ) (hn : 1 < n) :
    (Gui.build_envelope n).length = n ∧
    (∀ x ∈ Gui.build_envelope n, 0 ≤ x ∧ x ≤ 1) ∧
    (∀ k, k + 1 < n →
      (Gui.build_envelope n).getD k 0 ≤ (Gui.build_envelope n).getD (k + 1) 0) ∧
    (Gui.build_envelope n).getD 0 0 = 0 ∧
    (Gui.build_envelope n).getD (n - 1) 0 = 1 := by
  have hn1 : ¬ n ≤ 1 := by omega
  have hden : (0 : ℚ) < (n : ℚ) - 1 := by
    have : (1 : ℚ) < (n : ℚ) := by exact_mod_cast hn
    linarith
  refine ⟨Gui.length_build_envelope n, ?_, ?_, ?_, ?_⟩
  · intro x hx
    rw [Gui.build_envelope, Gui.linspace01, List.map_map] at hx
    simp only [List.mem_map, List.mem_range, Function.comp] at hx
    obtain ⟨i, hi, rfl⟩ := hx
    rw [if_neg hn1]
    have hi0 : (0 : ℚ) ≤ (i : ℚ) / ((n : ℚ) - 1) := by positivity
    have hi1 : (i : ℚ) / ((n : ℚ) - 1) ≤ 1 := by
      rw [div_le_one hden]
      have : (i : ℚ) ≤ (n : ℚ) - 1 := by
        have : i ≤ n - 1 := by omega
        have h2 : ((i : ℕ) : ℚ) ≤ ((n - 1 : ℕ) : ℚ) := by exact_mod_cast this
        rwa [Nat.cast_sub (by omega), Nat.cast_one] at h2
      linarith
    exact Gui.ease_mem_unitInterval hi0 hi1
  · intro k hk
    rw [Gui.build_envelope_getElem n k (by omega),
        Gui.build_envelope_getElem n (k + 1) hk, if_neg hn1, if_neg hn1]
    apply Gui.ease_mono
    · positivity
    · rw [div_le_div_iff_of_pos_right hden]
      exact_mod_cast Nat.le_succ k
    · rw [div_le_one hden]
      have : (k + 1 : ℕ) ≤ n - 1 := by omega
      have h2 : ((k + 1 : ℕ) : ℚ) ≤ ((n - 1 : ℕ) : ℚ) := by exact_mod_cast this
      rw [Nat.cast_sub (by omega), Nat.cast_one] at h2
      push_cast at h2 ⊢
      linarith
  · rw [Gui.build_envelope_getElem n 0 (by omega), if_neg hn1]
    simp [Gui.ease]
  · rw [Gui.build_envelope_getElem n (n - 1) (by omega), if_neg hn1]
    have : ((n - 1 : ℕ) : ℚ) = (n : ℚ) - 1 := by
      rw [Nat.cast_sub (by omega), Nat.cast_one]
    rw [this, div_self (ne_of_gt hden)]
    simp [Gui.ease]
    ring

/-- Witness for claim C3. The envelope of length 3 is `[0, 1/2, 1]`, matching the
shape theorem at `n = 3`. -/
theorem c3_envelope_shape_witness :
    (Gui.build_envelope 3).length = 3 ∧
    (∀ x ∈ Gui.build_envelope 3, 0 ≤ x ∧ x ≤ 1) ∧
    (∀ k, k + 1 < 3 →
      (Gui.build_envelope 3).getD k 0 ≤ (Gui.build_envelope 3).getD (k + 1) 0) ∧
    (Gui.build_envelope 3).getD 0 0 = 0 ∧
    (Gui.build_envelope 3).getD (3 - 1) 0 = 1 :=
  c3_envelope_shape 3 (by decide)

/-- Counterexample for claim C8. `build_envelope 1` is `[0]`, not `[1]`:
`np.linspace(0, 1, 1)` returns `[0.0]`, and `3·0² − 2·0³ = 0`. -/
theorem c8_counterexample :
    Gui.build_envelope 1 = [0] ∧ Gui.build_envelope 1 ≠ [1] := by
  constructor
  · simp [Gui.build_envelope, Gui.linspace01, Gui.ease, List.range_succ]
  · simp [Gui.build_envelope, Gui.linspace01, Gui.ease, List.range_succ]

/-- Claim C8 as amended. `build_envelope 1` returns the single-element sequence
`[0.0]` (the sole `linspace` sample is `t = 0` and the ease law sends it
to `0`). -/
theorem c8_amended : Gui.build_envelope 1 = [0] := by
  simp [Gui.build_envelope, Gui.linspace01, Gui.ease, List.range_succ]

namespace Gui

theorem zip_map_self {α β : Type} (g : α → β) :
    ∀ l : List α, l.zip (l.map g) = l.map fun a => (a, g a)
  | [] => rfl
  | a :: l => by simp [zip_map_self g l]

/-- For `n ≥ 2` the last envelope sample is `ease 1 = 1`. -/
theorem build_envelope_getLast (n : ℕ) (hn : 2 ≤ n) :
    (build_envelope n).getLast? = some 1 := by
  obtain ⟨m, rfl⟩ : ∃ m, n = m + 1 := ⟨n - 1, by omega⟩
  have hm : 1 ≤ m := by omega
  have hcond : ¬ m + 1 ≤ 1 := by omega
  have hm0 : (m : ℚ) ≠ 0 := by exact_mod_cast Nat.one_le_iff_ne_zero.mp hm
  rw [build_envelope, linspace01, List.getLast?_map, List.getLast?_map,
    List.range_succ, List.getLast?_concat]
  simp only [Option.map_some', if_neg hcond]
  push_cast
  rw [add_sub_cancel_right, div_self hm0]
  norm_num [ease]

/-- The final per-channel ramp value `ramp_data[i][-1]` equals the target
amplitude whenever the ramp has at least two frames. -/
theorem ramp_values_getLastD (a : ℚ) (n : ℕ) (hn : 2 ≤ n) :
    ((build_envelope n).map fun e => a * e).getLastD 0 = a := by
  rw [List.getLastD_eq_getLast?, List.getLast?_map, build_envelope_getLast n hn]
  simp

theorem start_ramp_queue (s : State) (d : RampDir) :
    (start_ramp s d).queue = s.queue := by
  rw [start_ramp]; split <;> rfl

theorem stop_all_queue (s : State) : ((stop_all s).1).queue = s.queue := by
  rw [stop_all]; split <;> rfl

theorem handle_command_queue (s : State) (c : Command) :
    ((handle_command s c).1).queue = s.queue := by
  cases c <;>
    simp [handle_command, start_osc_client, start_ramp_queue, stop_all_queue]

theorem send_heartbeat_queue (s : State) :
    ((send_heartbeat s).1).queue = s.queue := by
  rw [send_heartbeat]; split <;> rfl

theorem send_ramp_frame_queue (s : State) :
    ((send_ramp_frame s).1).queue = s.queue ∨
    ((send_ramp_frame s).1).queue = s.queue ++ [.START_HEARTBEAT] := by
  rw [send_ramp_frame]
  split
  · exact Or.inl rfl
  · split
    · exact Or.inl rfl
    · exact Or.inl rfl
    · split
      · split
        · exact Or.inl rfl
        · exact Or.inr rfl
      · exact Or.inl rfl

theorem mode_dispatch_queue (s : State) :
    ((mode_dispatch s).1).queue = s.queue ∨
    ((mode_dispatch s).1).queue = s.queue ++ [.START_HEARTBEAT] := by
  rw [mode_dispatch]
  split
  · exact Or.inl (send_heartbeat_queue s)
  · exact send_ramp_frame_queue s
  · exact send_ramp_frame_queue s
  · exact send_ramp_frame_queue s
  · exact Or.inl rfl

/-- Worker iterations dequeue from the front: the command applied is the
queue head. -/
theorem worker_iter_applied_head (s : State) :
    (worker_iter s).2.2 = s.queue.head? := by
  rcases hq : s.queue with _ | ⟨c, rest⟩ <;> simp [worker_iter, hq]

/-- The queue after one iteration is the tail of the old queue, possibly with
a scheduler-generated `START_HEARTBEAT` appended at the back. -/
theorem worker_iter_queue (s : State) :
    ((worker_iter s).1).queue = s.queue.drop 1 ∨
    ((worker_iter s).1).queue = s.queue.drop 1 ++ [.START_HEARTBEAT] := by
  rcases hq : s.queue with _ | ⟨c, rest⟩
  · simpa [worker_iter, hq] using mode_dispatch_queue s
  · have h1 := handle_command_queue { s with queue := rest } c
    have h2 := mode_dispatch_queue (handle_command { s with queue := rest } c).1
    simp only [worker_iter, hq]
    rcases h2 with h2 | h2
    · exact Or.inl (by rw [h2, h1]; simp)
    · exact Or.inr (by rw [h2, h1]; simp)

/-- FIFO serialization: over the first `n` iterations, the applied commands
are precisely the first `n` commands of the initial queue, in order. -/
theorem iter_applied_take :
    ∀ (n : ℕ) (s : State), n ≤ s.queue.length →
      iter_applied n s = s.queue.take n := by
  intro n
  induction n with
  | zero => intro s _; simp [iter_applied]
  | succ m ih =>
      intro s h
      rcases hq : s.queue with _ | ⟨c, rest⟩
      · rw [hq] at h; simp at h
      · have happ : (worker_iter s).2.2 = some c := by
          rw [worker_iter_applied_head, hq]; rfl
        have hm : m ≤ rest.length := by
          rw [hq] at h; simpa using h
        have hq' := worker_iter_queue s
        rw [hq] at hq'
        simp only [List.drop_succ_cons, List.drop_zero] at hq'
        have htail : iter_applied m (worker_iter s).1 = rest.take m := by
          rcases hq' with hq' | hq'
          · rw [ih _ (by rw [hq']; exact hm), hq']
          · rw [ih _ (by rw [hq']; simp; omega), hq',
              List.take_append_of_le_length hm]
        rw [iter_applied, happ, htail]
        simp [hq, List.take_succ_cons]

end Gui

/-- Claim C2. With no pending command, a worker-loop iteration emits no motion
frames when the mode is `IDLE` or `STOPPED`; and in `HEARTBEAT` mode (with a
connected client) it sends the neutral value `0.0` exactly once to every
configured channel's address. -/
theorem c2_mode_emission (s : Gui.State) (hq : s.queue = []) :
    ((s.mode = .IDLE ∨ s.mode = .STOPPED) → (Gui.worker_iter s).2.1 = []) ∧
    (s.mode = .HEARTBEAT → s.hasClient = true →
      (Gui.worker_iter s).2.1 = s.channels.map fun c => Msg.mk c.address (.f 0)) := by
  constructor
  · rintro (h | h) <;> simp [Gui.worker_iter, hq, Gui.mode_dispatch, h]
  · intro hm hc
    by_cases hch : s.channels = [] <;>
      simp [Gui.worker_iter, hq, Gui.mode_dispatch, hm, Gui.send_heartbeat, hc, hch]

/-- Witness for claim C2. In `IDLE` nothing is emitted; in `HEARTBEAT` the single
configured channel receives `0.0`. -/
theorem c2_mode_emission_witness :
    (Gui.worker_iter Gui.wit_idle).2.1 = [] ∧
    (Gui.worker_iter Gui.wit_hb).2.1 =
      Gui.wit_hb.channels.map fun c => Msg.mk c.address (.f 0) :=
  ⟨(c2_mode_emission Gui.wit_idle rfl).1 (Or.inl rfl),
   (c2_mode_emission Gui.wit_hb rfl).2 rfl rfl⟩

/-- Claim C5. Each worker iteration removes at most one command — exactly the
head of the FIFO queue, without blocking — and over any `n` iterations the
applied commands are the first `n` enqueued commands in arrival order:
bursts are serialized one per tick, never merged or reordered. -/
theorem c5_fifo_commands (s : Gui.State) :
    (Gui.worker_iter s).2.2 = s.queue.head? ∧
    ∀ n, n ≤ s.queue.length → Gui.iter_applied n s = s.queue.take n :=
  ⟨Gui.worker_iter_applied_head s, fun n hn => Gui.iter_applied_take n s hn⟩

/-- Witness for claim C5. A two-command burst (`TURN_LEFT` then `STOP_ALL`) is
applied over two ticks in enqueue order. -/
theorem c5_fifo_commands_witness :
    (Gui.worker_iter Gui.wit_queue).2.2 = Gui.wit_queue.queue.head? ∧
    Gui.iter_applied 2 Gui.wit_queue = Gui.wit_queue.queue.take 2 :=
  ⟨(c5_fifo_commands Gui.wit_queue).1,
   (c5_fifo_commands Gui.wit_queue).2 2 (by decide)⟩

namespace Gui

/-- Hold phase of `send_ramp_frame`: envelope exhausted and `hold_frame <
hold_frames` — each channel gets `ramp_data[i][-1]` and only `hold_frame`
advances (the code returns before the stats update). -/
theorem send_ramp_frame_hold (s : State) (r0 : List ℚ) (rs : List (List ℚ))
    (hcl : s.hasClient = true) (hrd : s.rampData = some (r0 :: rs))
    (hlen : r0.length ≤ s.rampFrame) (hhold : s.holdFrame < s.holdFrames) :
    send_ramp_frame s =
      ({ s with holdFrame := s.holdFrame + 1 },
        (s.channels.zip (r0 :: rs)).map fun p =>
          Msg.mk p.1.address (.f (p.2.getLastD 0))) := by
  rw [send_ramp_frame, if_neg (by simp [hcl])]
  split
  next heq => rw [hrd] at heq; simp at heq
  next heq => rw [hrd] at heq; simp at heq
  next a l heq =>
    rw [hrd] at heq
    injection heq with heq
    injection heq with h1 h2
    subst h1; subst h2
    rw [if_pos hlen, if_pos hhold]

/-- Hold complete: `send_ramp_frame` enqueues `START_HEARTBEAT` and sends
nothing. -/
theorem send_ramp_frame_hold_done (s : State) (r0 : List ℚ) (rs : List (List ℚ))
    (hcl : s.hasClient = true) (hrd : s.rampData = some (r0 :: rs))
    (hlen : r0.length ≤ s.rampFrame) (hhold : s.holdFrames ≤ s.holdFrame) :
    send_ramp_frame s =
      ({ s with queue := s.queue ++ [.START_HEARTBEAT] }, []) := by
  rw [send_ramp_frame, if_neg (by simp [hcl])]
  split
  next heq => rw [hrd] at heq; simp at heq
  next heq => rw [hrd] at heq; simp at heq
  next a l heq =>
    rw [hrd] at heq
    injection heq with heq
    injection heq with h1 h2
    subst h1; subst h2
    rw [if_pos hlen, if_neg (by omega)]

theorem send_heartbeat_mode (s : State) :
    ((send_heartbeat s).1).mode = s.mode := by
  rw [send_heartbeat]; split <;> rfl

theorem send_ramp_frame_mode (s : State) :
    ((send_ramp_frame s).1).mode = s.mode := by
  rw [send_ramp_frame]
  split
  · rfl
  · split
    · rfl
    · rfl
    · split
      · split <;> rfl
      · rfl

theorem mode_dispatch_mode (s : State) :
    ((mode_dispatch s).1).mode = s.mode := by
  rw [mode_dispatch]
  split
  · exact send_heartbeat_mode s
  · exact send_ramp_frame_mode s
  · exact send_ramp_frame_mode s
  · exact send_ramp_frame_mode s
  · rfl

/-- Processing a `START_HEARTBEAT` at the head of the queue leaves the worker
in `HEARTBEAT` mode at the end of the iteration. -/
theorem worker_iter_sh_mode (s : State) (rest : List Command)
    (hq : s.queue = .START_HEARTBEAT :: rest) :
    ((worker_iter s).1).mode = .HEARTBEAT := by
  simp only [worker_iter, hq]
  rw [mode_dispatch_mode]
  simp [handle_command, start_osc_client]

/-- One worker iteration during the hold phase: every channel receives its
final ramp value — the target amplitude, since a ramp of `n ≥ 2` frames ends
at envelope value `1` — and only `hold_frame` advances. -/
theorem hold_step (s : State) (d : RampDir) (n : ℕ)
    (hmode : s.mode = .TURNING_LEFT ∨ s.mode = .TURNING_RIGHT ∨ s.mode = .BASELINE)
    (hq : s.queue = [])
    (hcl : s.hasClient = true)
    (hch : s.channels ≠ [])
    (hn : 2 ≤ n)
    (hrd : s.rampData = some (s.channels.map fun c =>
      (build_envelope n).map fun e => ampFor d c * e))
    (hrf : n ≤ s.rampFrame)
    (hhold : s.holdFrame < s.holdFrames) :
    worker_iter s =
      ({ s with holdFrame := s.holdFrame + 1 },
        s.channels.map fun c => Msg.mk c.address (.f (ampFor d c)), none) := by
  rcases hrw : (s.channels.map fun c =>
      (build_envelope n).map fun e => ampFor d c * e) with _ | ⟨r0, rs⟩
  · rw [List.map_eq_nil_iff] at hrw
    exact absurd hrw hch
  · have hmem : r0 ∈ s.channels.map fun c =>
        (build_envelope n).map fun e => ampFor d c * e := by
      rw [hrw]; exact List.mem_cons_self _ _
    obtain ⟨c1, _, hc1⟩ := List.mem_map.mp hmem
    have hlen : r0.length ≤ s.rampFrame := by
      rw [← hc1, List.length_map, length_build_envelope]; exact hrf
    have hsr := send_ramp_frame_hold s r0 rs hcl (by rw [hrd, hrw]) hlen hhold
    rw [← hrw, zip_map_self, List.map_map] at hsr
    have hmsg : (s.channels.map ((fun p : Channel × List ℚ =>
          Msg.mk p.1.address (.f (p.2.getLastD 0))) ∘ fun c =>
            (c, (build_envelope n).map fun e => ampFor d c * e))) =
        s.channels.map fun c => Msg.mk c.address (.f (ampFor d c)) := by
      refine List.map_congr_left fun c _ => ?_
      simp only [Function.comp]
      rw [ramp_values_getLastD _ n hn]
    rw [hmsg] at hsr
    rcases hmode with hm | hm | hm <;>
      simp [worker_iter, hq, mode_dispatch, hm, hsr]

/-- One worker iteration after the hold completes: nothing is sent and
`START_HEARTBEAT` is enqueued. -/
theorem hold_done_step (s : State) (d : RampDir) (n : ℕ)
    (hmode : s.mode = .TURNING_LEFT ∨ s.mode = .TURNING_RIGHT ∨ s.mode = .BASELINE)
    (hq : s.queue = [])
    (hcl : s.hasClient = true)
    (hch : s.channels ≠ [])
    (hrd : s.rampData = some (s.channels.map fun c =>
      (build_envelope n).map fun e => ampFor d c * e))
    (hrf : n ≤ s.rampFrame)
    (hhold : s.holdFrames ≤ s.holdFrame) :
    worker_iter s =
      ({ s with queue := s.queue ++ [.START_HEARTBEAT] }, [], none) := by
  rcases hrw : (s.channels.map fun c =>
      (build_envelope n).map fun e => ampFor d c * e) with _ | ⟨r0, rs⟩
  · rw [List.map_eq_nil_iff] at hrw
    exact absurd hrw hch
  · have hmem : r0 ∈ s.channels.map fun c =>
        (build_envelope n).map fun e => ampFor d c * e := by
      rw [hrw]; exact List.mem_cons_self _ _
    obtain ⟨c1, _, hc1⟩ := List.mem_map.mp hmem
    have hlen : r0.length ≤ s.rampFrame := by
      rw [← hc1, List.length_map, length_build_envelope]; exact hrf
    have hsr := send_ramp_frame_hold_done s r0 rs hcl (by rw [hrd, hrw]) hlen hhold
    rcases hmode with hm | hm | hm <;>
      simp [worker_iter, hq, mode_dispatch, hm, hsr]

end Gui

/-- Claim C4. When a ramp built by `start_ramp` (with an envelope of `n ≥ 2`
frames) has exhausted its envelope, the worker sends each channel's final
ramp value — the target amplitude `ampFor d c` — for exactly `hold_frames`
further iterations; the following iteration sends no ramp values and issues
`START_HEARTBEAT`, and one iteration later the mode is `HEARTBEAT`. -/
theorem c4_hold_then_heartbeat (s : Gui.State) (d : Gui.RampDir) (n : ℕ)
    (hmode : s.mode = .TURNING_LEFT ∨ s.mode = .TURNING_RIGHT ∨ s.mode = .BASELINE)
    (hq : s.queue = [])
    (hcl : s.hasClient = true)
    (hch : s.channels ≠ [])
    (hn : 2 ≤ n)
    (hrd : s.rampData = some (s.channels.map fun c =>
      (Gui.build_envelope n).map fun e => Gui.ampFor d c * e))
    (hrf : n ≤ s.rampFrame)
    (hh0 : s.holdFrame = 0) :
    (∀ k, k < s.holdFrames →
      Gui.iter_msgs k s =
        s.channels.map fun c => Msg.mk c.address (.f (Gui.ampFor d c))) ∧
    Gui.iter_msgs s.holdFrames s = [] ∧
    (Gui.iter_state (s.holdFrames + 1) s).queue = [.START_HEARTBEAT] ∧
    (Gui.iter_state (s.holdFrames + 1 + 1) s).mode = .HEARTBEAT := by
  have key : ∀ k, k ≤ s.holdFrames →
      Gui.iter_state k s = { s with holdFrame := k } := by
    intro k
    induction k with
    | zero =>
        intro _
        have h0 : ({ s with holdFrame := 0 } : Gui.State) = s := by rw [← hh0]
        exact h0.symm
    | succ m ih =>
        intro hk
        rw [Gui.iter_state, ih (by omega)]
        have hstep := Gui.hold_step { s with holdFrame := m } d n
          (by simpa using hmode) (by simpa using hq) (by simpa using hcl)
          (by simpa using hch) hn (by simpa using hrd) (by simpa using hrf)
          (by simp only; omega)
        rw [hstep]
  have hdone := Gui.hold_done_step { s with holdFrame := s.holdFrames } d n
    (by simpa using hmode) (by simpa using hq) (by simpa using hcl)
    (by simpa using hch) (by simpa using hrd) (by simpa using hrf)
    (by simp)
  refine ⟨?_, ?_, ?_, ?_⟩
  · intro k hk
    rw [Gui.iter_msgs, key k (le_of_lt hk)]
    have hstep := Gui.hold_step { s with holdFrame := k } d n
      (by simpa using hmode) (by simpa using hq) (by simpa using hcl)
      (by simpa using hch) hn (by simpa using hrd) (by simpa using hrf)
      (by simp only; omega)
    rw [hstep]
  · rw [Gui.iter_msgs, key s.holdFrames le_rfl, hdone]
  · rw [Gui.iter_state, key s.holdFrames le_rfl, hdone]
    simp [hq]
  · have hu : Gui.iter_state (s.holdFrames + 1) s =
        { s with holdFrame := s.holdFrames,
                 queue := s.queue ++ [.START_HEARTBEAT] } := by
      rw [Gui.iter_state, key s.holdFrames le_rfl, hdone]
    rw [Gui.iter_state, hu]
    exact Gui.worker_iter_sh_mode _ [] (by simp [hq])

/-- Witness for claim C4. A one-channel left ramp of two frames with one hold frame:
the hold frame repeats the amplitude `5`, the next tick is silent and
enqueues `START_HEARTBEAT`, and the tick after that is in `HEARTBEAT`. -/
theorem c4_hold_then_heartbeat_witness :
    Gui.iter_msgs 0 Gui.wit_hold = [Msg.mk ("/bone/pelvis/yaw") (.f 5)] ∧
    Gui.iter_msgs 1 Gui.wit_hold = [] ∧
    (Gui.iter_state 2 Gui.wit_hold).queue = [.START_HEARTBEAT] ∧
    (Gui.iter_state 3 Gui.wit_hold).mode = .HEARTBEAT := by
  obtain ⟨h1, h2, h3, h4⟩ := c4_hold_then_heartbeat Gui.wit_hold .left 2
    (Or.inl rfl) rfl rfl (by decide) (by decide) rfl (by decide) rfl
  refine ⟨?_, h2, h3, h4⟩
  have := h1 0 (by decide)
  simpa using this

namespace V3

theorem denormalize_data_length (p : NormParams) (v : List ℚ)
    (hmean : p.mean.length = v.length) (hstd : p.std.length = v.length) :
    (denormalize_data (some p) v).length = v.length := by
  simp [denormalize_data, hmean, hstd]

theorem denormalize_data_getD (p : NormParams) (v : List ℚ) (i : ℕ)
    (hmean : p.mean.length = v.length) (hstd : p.std.length = v.length)
    (hi : i < v.length) :
    (denormalize_data (some p) v).getD i 0 =
      v.getD i 0 * p.std.getD i 0 + p.mean.getD i 0 := by
  have h1 : i < (denormalize_data (some p) v).length := by
    rw [denormalize_data_length p v hmean hstd]; exact hi
  have hs : i < p.std.length := by rw [hstd]; exact hi
  have hm2 : i < p.mean.length := by rw [hmean]; exact hi
  rw [List.getD_eq_getElem _ _ h1, List.getD_eq_getElem _ _ hi,
    List.getD_eq_getElem _ _ hs, List.getD_eq_getElem _ _ hm2]
  simp only [denormalize_data]
  rw [List.getElem_zipWith, List.getElem_zipWith]

end V3

/-- Claim C1. For every configured channel whose `source_column` resolves to an
in-range feature index `i`, `stream_frame` sends on that channel's address the
value `scale * ((v[i] * std[i]) + mean[i]) + offset`, further clamped as
`max(min, min(max, value))` when the channel's clamp is present
(`applyClamp`). -/
theorem c1_channel_transform (s : V3.State) (v : List ℚ) (n : ℕ)
    (c : V3.Channel) (p : V3.NormParams) (i : ℕ)
    (hcl : s.hasClient = true)
    (hc : c ∈ s.channels)
    (hp : s.normalizationParams = some p)
    (hmean : p.mean.length = v.length)
    (hstd : p.std.length = v.length)
    (hmap : V3.lookupMapping s.channelMapping c.source_column = some i)
    (hi : i < v.length) :
    Msg.mk c.osc_address (.f (V3.applyClamp c.transform
      (c.transform.scale * (v.getD i 0 * p.std.getD i 0 + p.mean.getD i 0)
        + c.transform.offset))) ∈ (V3.stream_frame s v n).2 := by
  have hne : s.channels ≠ [] := List.ne_nil_of_mem hc
  rw [V3.stream_frame, if_neg (by simp [hcl]), if_neg hne]
  show _ ∈ V3.streamMsgs s v n
  rw [V3.streamMsgs, hp]
  refine List.mem_append.mpr (Or.inl (List.mem_flatten.mpr
    ⟨V3.channelMsg s.channelMapping (V3.denormalize_data (some p) v) c,
      List.mem_map_of_mem _ hc, ?_⟩))
  simp only [V3.channelMsg, hmap]
  rw [if_pos (by rw [V3.denormalize_data_length p v hmean hstd]; exact hi)]
  rw [V3.denormalize_data_getD p v i hmean hstd hi]
  exact List.mem_singleton.mpr rfl

/-- Witness for claim C1. One mapped channel: normalized value `2` denormalizes to
`2·3 + 4 = 10`, transforms to `2·10 + 1 = 21`, and clamps to `10`. -/
theorem c1_channel_transform_witness :
    Msg.mk ("/bone/pelvis/yaw") (.f 10) ∈ (V3.stream_frame V3.wit_mapped [2] 0).2 := by
  have h := c1_channel_transform V3.wit_mapped [2] 0
    ⟨"Pelvis_axial_rotation", "/bone/pelvis/yaw", ⟨2, 1, some (-10, 10)⟩⟩
    ⟨[4], [3]⟩ 0 rfl (List.mem_singleton.mpr rfl) rfl rfl rfl (by decide)
    (by decide)
  norm_num [V3.applyClamp, min_def, max_def, List.getD_cons_zero] at h
  exact h

/-- Counterexample for claim C6. A frame over a single channel whose source column
has no feature index: the fallback `0.0` send is tallied into the ordinary
send counter `osc_send_count` (`3` = fallback + the two control messages),
`osc_error_count` stays `0`, and the state keeps no mapping-miss counter —
the miss is counted as a successful send, not separately. -/
theorem c6_counterexample :
    (V3.stream_frame V3.wit_miss [] 0).1.oscSendCount = 3 ∧
    (V3.stream_frame V3.wit_miss [] 0).1.oscErrorCount = 0 ∧
    (V3.stream_frame V3.wit_miss [] 0).2 =
      [Msg.mk ("/bone/spine_01/pitch") (.f 0),
        Msg.mk ("/mh/frame") (.i 0), Msg.mk ("/mh/mode") (.s ("BASELINE"))] := by
  refine ⟨rfl, rfl, rfl⟩

/-- Claim C6 as amended. For every configured channel whose `source_column` has
no resolvable feature index, `stream_frame` sends the fallback value `0.0` on
that channel's address instead of raising; the event is not counted as a send
error — it is counted as an ordinary successful send in `osc_send_count`
(the code keeps no separate mapping-miss counter; misses are only logged when
the channel configuration is loaded). -/
theorem c6_amended_fallback (s : V3.State) (v : List ℚ) (n : ℕ)
    (c : V3.Channel)
    (hcl : s.hasClient = true)
    (hc : c ∈ s.channels)
    (hmap : V3.lookupMapping s.channelMapping c.source_column = none) :
    Msg.mk c.osc_address (.f 0) ∈ (V3.stream_frame s v n).2 ∧
    (V3.stream_frame s v n).1.oscErrorCount = s.oscErrorCount ∧
    (V3.stream_frame s v n).1.oscSendCount =
      s.oscSendCount + (V3.stream_frame s v n).2.length := by
  have hne : s.channels ≠ [] := List.ne_nil_of_mem hc
  rw [V3.stream_frame, if_neg (by simp [hcl]), if_neg hne]
  refine ⟨?_, rfl, rfl⟩
  show _ ∈ V3.streamMsgs s v n
  rw [V3.streamMsgs]
  refine List.mem_append.mpr (Or.inl (List.mem_flatten.mpr
    ⟨V3.channelMsg s.channelMapping
        (V3.denormalize_data s.normalizationParams v) c,
      List.mem_map_of_mem _ hc, ?_⟩))
  simp only [V3.channelMsg, hmap]
  exact List.mem_singleton.mpr rfl

/-- Witness for claim C6. The unmapped channel of `wit_miss` receives `0.0`, the
error counter is unchanged, and all emitted messages (fallback included) are
tallied into the send counter. -/
theorem c6_amended_fallback_witness :
    Msg.mk ("/bone/spine_01/pitch") (.f 0) ∈ (V3.stream_frame V3.wit_miss [] 0).2 ∧
    (V3.stream_frame V3.wit_miss [] 0).1.oscErrorCount = V3.wit_miss.oscErrorCount ∧
    (V3.stream_frame V3.wit_miss [] 0).1.oscSendCount =
      V3.wit_miss.oscSendCount + (V3.stream_frame V3.wit_miss [] 0).2.length :=
  c6_amended_fallback V3.wit_miss [] 0
    ⟨"Missing_column", "/bone/spine_01/pitch", ⟨1, 0, none⟩⟩
    rfl (List.mem_singleton.mpr rfl) rfl

/-- Claim C9. When `normalization_params` is `None`, `denormalize_data` is the
identity: the frame is streamed without denormalization rather than the
operation failing. -/
theorem c9_denormalize_none_id (v : List ℚ) :
    V3.denormalize_data none v = v := rfl

/-- Claim C10. When `is_streaming` is false, `start_left_turn`,
`start_right_turn` and `return_to_baseline` leave the entire state — in
particular `current_mode` and the stored turn sequences — unchanged. -/
theorem c10_not_streaming_noop (s : V3.State) (seqL seqR : List (List ℚ))
    (h : s.isStreaming = false) :
    V3.start_left_turn s seqL = s ∧ V3.start_right_turn s seqR = s ∧
    V3.return_to_baseline s = s := by
  refine ⟨?_, ?_, ?_⟩ <;>
    simp [V3.start_left_turn, V3.start_right_turn, V3.return_to_baseline, h]

/-- Witness for claim C10. The non-streaming state `wit_stopped` is left intact by
all three mode commands. -/
theorem c10_not_streaming_noop_witness :
    V3.start_left_turn V3.wit_stopped [] = V3.wit_stopped ∧
    V3.start_right_turn V3.wit_stopped [] = V3.wit_stopped ∧
    V3.return_to_baseline V3.wit_stopped = V3.wit_stopped :=
  c10_not_streaming_noop V3.wit_stopped [] [] rfl

namespace NLP

theorem le_clampTo (lo hi x : ℚ) : lo ≤ clampTo lo hi x := le_max_left _ _

theorem clampTo_le (lo hi x : ℚ) (h : lo ≤ hi) : clampTo lo hi x ≤ hi :=
  max_le h (min_le_left _ _)

end NLP

/-- Claim C7. (spec-modelled) Every turn intent produced by the parser's
numeric resolution has `angle_deg ∈ [0,180]`, `speed_deg_s ∈ [1,360]` and,
when present, `duration_s ∈ [0,10]`; in particular an explicit `200°` clamps
to `180` and `-10°` clamps to `0`. -/
theorem c7_turn_clamping (m : NLP.TurnMatch) :
    (0 ≤ (NLP.resolveTurn m).angle_deg ∧ (NLP.resolveTurn m).angle_deg ≤ 180) ∧
    (1 ≤ (NLP.resolveTurn m).speed_deg_s ∧ (NLP.resolveTurn m).speed_deg_s ≤ 360) ∧
    ((NLP.resolveTurn m).duration_s = none ∨
      ∃ dur, (NLP.resolveTurn m).duration_s = some dur ∧ 0 ≤ dur ∧ dur ≤ 10) ∧
    (NLP.resolveTurn { m with angle := some 200 }).angle_deg = 180 ∧
    (NLP.resolveTurn { m with angle := some (-10) }).angle_deg = 0 := by
  refine ⟨⟨NLP.le_clampTo _ _ _, NLP.clampTo_le _ _ _ (by norm_num)⟩,
    ⟨NLP.le_clampTo _ _ _, NLP.clampTo_le _ _ _ (by norm_num)⟩, ?_, ?_, ?_⟩
  · rcases hd : m.duration with _ | dur
    · exact Or.inl (by simp [NLP.resolveTurn, hd])
    · exact Or.inr ⟨NLP.clampTo 0 10 dur, by simp [NLP.resolveTurn, hd],
        NLP.le_clampTo _ _ _, NLP.clampTo_le _ _ _ (by norm_num)⟩
  · norm_num [NLP.resolveTurn, NLP.clampTo, Option.orElse]
  · norm_num [NLP.resolveTurn, NLP.clampTo, Option.orElse]
